import Mathlib

/-!
Verification development for the regex-list extension (src/index.js).

The extension's core is a rule-based text-rewriting pipeline:
`getRegexedString` folds an ordered collection of user-authored regex
scripts over an input string, gated per script by placement, markdown /
prompt mode, edit flag and depth bounds; `runRegexScript` compiles a
script's delimited pattern and rewrites every match using the script's
replacement template; `filterString` strips trim-list literals from a
captured fragment; `getActiveRegexScripts` lists the names of enabled
global scripts.

The host facilities the extension calls but does not define
(`substituteParams`, `substituteParamsExtended`, the global
`extension_settings` object, the current character's scoped scripts) are
modelled as an explicit environment `Env` of the same shape.  The
JavaScript regular-expression machinery (`RegExp`, `String.replace` with
a replacer callback, and the host utility `regexFromString`) is external
to the repository and is modelled from the spec by a small executable
pattern engine below.
-/

namespace RegexListSpec

set_option maxRecDepth 8000

/-! ### Basic character and string helpers -/

def lbrace : Char := Char.ofNat 123

def rbrace : Char := Char.ofNat 125

def isWordChar (c : Char) : Bool :=
  (decide (97 ≤ c.toNat) && decide (c.toNat ≤ 122)) ||
  (decide (65 ≤ c.toNat) && decide (c.toNat ≤ 90)) ||
  (decide (48 ≤ c.toNat) && decide (c.toNat ≤ 57)) ||
  decide (c.toNat = 95)

def isDigitChar (c : Char) : Bool :=
  decide (48 ≤ c.toNat) && decide (c.toNat ≤ 57)

def natOfDigits (ds : List Char) : Nat :=
  ds.foldl (fun n c => n * 10 + (c.toNat - 48)) 0

/-- `strSlice s i j` is the sublist of `s` from index `i` (inclusive) to
index `j` (exclusive), the text of a match spanning those positions. -/
def strSlice (s : List Char) (i j : Nat) : List Char :=
  (s.drop i).take (j - i)

/-! ### Executable pattern engine

Modelled from the spec: the JavaScript `RegExp` object compiled from a
pattern source and the `String.replace` traversal over it are external
collaborators ("an executable pattern object"; "replace every
non-overlapping match of the compiled pattern across `text`, left to
right, repeated per the pattern's own global/non-global flag").  The
engine below implements leftmost, greedy, backtracking matching with
numbered capture groups for the pattern constructs the repository's
scripts exercise: literal characters, escaped literals, the word class,
grouping, and the `+` / `*` quantifiers. -/

inductive RE where
  | epsilon : RE
  | char : Char → RE
  | wordClass : RE
  | seq : RE → RE → RE
  | star : RE → RE
  | group : Nat → RE → RE
  deriving DecidableEq

def reSize : RE → Nat
  | RE.epsilon => 1
  | RE.char _ => 1
  | RE.wordClass => 1
  | RE.seq a b => reSize a + reSize b + 1
  | RE.star a => reSize a + 1
  | RE.group _ a => reSize a + 1

/-- Capture-group bindings recorded along a successful match path; the
most recent binding for a group number is found first. -/
abbrev GroupMap := List (Nat × String)

/-- Backtracking matcher in continuation-passing style.  `matchAt fuel re
s i g k` tries to match `re` in `s` starting at index `i`; on each way the
match can succeed it calls `k` with the end index and updated captures,
returning the first success (greedy order).  `fuel` bounds recursion
depth only; it is generous enough for every concrete evaluation below. -/
def matchAt : Nat → RE → List Char → Nat → GroupMap →
    (Nat → GroupMap → Option (Nat × GroupMap)) → Option (Nat × GroupMap)
  | 0, _, _, _, _, _ => none
  | fuel + 1, re, s, i, g, k =>
    match re with
    | RE.epsilon => k i g
    | RE.char c =>
      match s[i]? with
      | some c2 => if c2 == c then k (i + 1) g else none
      | none => none
    | RE.wordClass =>
      match s[i]? with
      | some c2 => if isWordChar c2 then k (i + 1) g else none
      | none => none
    | RE.seq a b =>
      matchAt fuel a s i g (fun j g2 => matchAt fuel b s j g2 k)
    | RE.star a =>
      match matchAt fuel a s i g
          (fun j g2 => if j == i then none else matchAt fuel (RE.star a) s j g2 k) with
      | some r => some r
      | none => k i g
    | RE.group n a =>
      matchAt fuel a s i g (fun j g2 => k j ((n, String.mk (strSlice s i j)) :: g2))

def matchFuel (re : RE) (len : Nat) : Nat :=
  (len + 2) * (len + 2) * (reSize re + 2) * (reSize re + 2)

/-- First match of `re` at or after index `i`: start index, end index and
captures. -/
def searchAt : Nat → RE → List Char → Nat → Option (Nat × Nat × GroupMap)
  | 0, _, _, _ => none
  | fuel + 1, re, s, i =>
    match matchAt (matchFuel re s.length) re s i [] (fun j g => some (j, g)) with
    | some (j, g) => some (i, j, g)
    | none => if i < s.length then searchAt fuel re s (i + 1) else none

def lookupGroup (n : Nat) (g : GroupMap) : Option String :=
  match g.find? (fun p => p.1 == n) with
  | some p => some p.2
  | none => none

/-- The numbered capture groups `1 .. count` of a match, as passed to a
replacer callback; a group that did not participate is `none`. -/
def groupArgs (count : Nat) (g : GroupMap) : List (Option String) :=
  (List.range count).map (fun idx => lookupGroup (idx + 1) g)

/-- A compiled pattern: the parsed pattern, its capture-group count, and
whether the `g` (global) flag was present. -/
structure CompiledRegex where
  re : RE
  groupCount : Nat
  globalFlag : Bool
  deriving DecidableEq

/-- Replacement loop of `String.replace`: rewrite the first match (or
every match under the global flag), emitting unmatched text verbatim and
the replacer's output for each match; an empty match advances one
character. -/
def replLoop (re : RE) (count : Nat) (globalFlag : Bool)
    (repl : String → List (Option String) → String) (s : List Char) :
    Nat → Nat → List Char → List Char
  | 0, i, acc => acc ++ s.drop i
  | fuel + 1, i, acc =>
    match searchAt (s.length + 2) re s i with
    | none => acc ++ s.drop i
    | some (st, en, g) =>
      let acc2 := acc ++ strSlice s i st ++
        (repl (String.mk (strSlice s st en)) (groupArgs count g)).data
      if globalFlag then
        if en == st then
          match s[en]? with
          | some c => replLoop re count globalFlag repl s fuel (en + 1) (acc2 ++ [c])
          | none => acc2
        else replLoop re count globalFlag repl s fuel en acc2
      else acc2 ++ s.drop en

def execReplace (cre : CompiledRegex) (s : String)
    (repl : String → List (Option String) → String) : String :=
  String.mk (replLoop cre.re cre.groupCount cre.globalFlag repl s.data
    (s.data.length + 2) 0 [])

/-! ### Pattern-source parsing

Modelled from the spec: "a pattern-parsing utility converting a delimited
string form (`/body/flags`) into an executable pattern object, returning
a null/empty signal on malformed input rather than throwing"
(`regexFromString` in the host's utils, imported by src/index.js). -/

def isRegexMeta (c : Char) : Bool :=
  c == '.' || c == '^' || c == '$' || c == '*' || c == '+' || c == '?' ||
  c == lbrace || c == rbrace || c == '[' || c == ']' || c == '\\' ||
  c == '|' || c == '(' || c == ')'

/-- An escaped atom `\c` of the pattern body: the word class `\w`, a
control-character escape, or an escaped metacharacter taken literally. -/
def escAtom (c : Char) : Option RE :=
  if c == 'w' then some RE.wordClass
  else if c == 'n' then some (RE.char (Char.ofNat 10))
  else if c == 'r' then some (RE.char (Char.ofNat 13))
  else if c == 't' then some (RE.char (Char.ofNat 9))
  else if c == 'v' then some (RE.char (Char.ofNat 11))
  else if c == 'f' then some (RE.char (Char.ofNat 12))
  else if c == '0' then some (RE.char (Char.ofNat 0))
  else if isRegexMeta c || c == '/' then some (RE.char c)
  else none

/-- Recursive-descent parser for a pattern body.  Returns the parsed
expression, the unconsumed input (empty or starting with a group-closing
parenthesis) and the next capture-group number; `none` signals a
malformed body.  Unsupported constructs are rejected as malformed. -/
def parseSeq : Nat → List Char → Nat → Option (RE × List Char × Nat)
  | 0, _, _ => none
  | fuel + 1, cs, gn =>
    match cs with
    | [] => some (RE.epsilon, [], gn)
    | c :: rest =>
      if c == ')' then some (RE.epsilon, cs, gn)
      else
        let atomRes : Option (RE × List Char × Nat) :=
          if c == '(' then
            match parseSeq fuel rest (gn + 1) with
            | some (sub, cs2, gn2) =>
              match cs2 with
              | c2 :: rest2 =>
                if c2 == ')' then some (RE.group (gn + 1) sub, rest2, gn2) else none
              | [] => none
            | none => none
          else if c == '\\' then
            match rest with
            | e :: rest2 =>
              match escAtom e with
              | some a => some (a, rest2, gn)
              | none => none
            | [] => none
          else if isRegexMeta c then none
          else some (RE.char c, rest, gn)
        match atomRes with
        | none => none
        | some (a, cs2, gn2) =>
          let quant : RE × List Char :=
            match cs2 with
            | q :: rest2 =>
              if q == '+' then (RE.seq a (RE.star a), rest2)
              else if q == '*' then (RE.star a, rest2)
              else (a, cs2)
            | [] => (a, cs2)
          match parseSeq fuel quant.2 gn2 with
          | some (b, cs3, gn3) => some (RE.seq quant.1 b, cs3, gn3)
          | none => none

def isFlagChar (c : Char) : Bool :=
  c == 'g' || c == 'i' || c == 'm' || c == 's' || c == 'u' || c == 'y'

/-- Split `cs` at its last slash: the body before it and the flags after
it; `none` when no slash is present. -/
def splitLastSlash (cs : List Char) : Option (List Char × List Char) :=
  match cs.reverse.span (fun c => !(c == '/')) with
  | (flagsRev, _ :: bodyRev) => some (bodyRev.reverse, flagsRev.reverse)
  | (_, []) => none

/-- Modelled from the spec: the host utility `regexFromString` parsing a
delimited `/body/flags` string into an executable pattern object; any
malformed input (no delimiters, invalid flags, unparsable body) yields
`none` instead of throwing. -/
def regexFromString (input : String) : Option CompiledRegex :=
  match input.data with
  | [] => none
  | c :: rest =>
    if c == '/' then
      match splitLastSlash rest with
      | none => none
      | some (body, flags) =>
        if flags.all isFlagChar then
          match parseSeq (body.length + 2) body 0 with
          | some (re, [], gn) => some ⟨re, gn, flags.contains 'g'⟩
          | _ => none
        else none
    else none

/-! ### Data model (src/index.js)

`Script` embeds the regex-script records consumed by `getRegexedString`;
field names follow the source (`scriptName`, `findRegex`,
`replaceString`, `trimStrings`, `placement`, `markdownOnly`,
`promptOnly`, `runOnEdit`, `minDepth`, `maxDepth`, `substituteRegex`).
A `minDepth` / `maxDepth` of `none` stands for the JavaScript values on
which the source's `!isNaN(x) && x !== null` test fails (absent, null,
not a number). -/

structure Script where
  scriptName : String := ""
  disabled : Bool := false
  findRegex : String := ""
  replaceString : String := ""
  trimStrings : List String := []
  placement : List Nat := []
  markdownOnly : Bool := false
  promptOnly : Bool := false
  runOnEdit : Bool := false
  minDepth : Option Int := none
  maxDepth : Option Int := none
  substituteRegex : Nat := 0
  deriving DecidableEq

/-- A dynamically-typed JavaScript value passed as `rawString`; the
source's `typeof rawString !== 'string'` guard distinguishes `str` from
every other constructor. -/
inductive JsVal where
  | str : String → JsVal
  | num : Int → JsVal
  | jsBool : Bool → JsVal
  | undef : JsVal
  | nullv : JsVal
  deriving DecidableEq

/-- The destructured `RegexParams` argument of `getRegexedString`; absent
fields default like JavaScript `undefined` (falsy booleans, no depth). -/
structure RegexParams where
  characterOverride : Option String := none
  isMarkdown : Bool := false
  isPrompt : Bool := false
  isEdit : Bool := false
  depth : Option Int := none
  deriving DecidableEq

/-- The substitution collaborators src/index.js imports from the host:
`substituteParams` (text, characterOverride) and
`substituteParamsExtended` (plain, and the variant taking a per-value
escaping function).  The defaults are the identity, the behavior when no
macros are defined. -/
structure Host where
  substituteParams : String → Option String → String := fun s _ => s
  substituteParamsExtended : String → String := fun s => s
  substituteParamsExtendedEsc : (String → String) → String → String := fun _ s => s

/-- The host state src/index.js reads: the substitution collaborators,
`extension_settings.disabledExtensions`, `extension_settings.regex`, and
the current character's allowance and scoped scripts read by
`getScopedRegex`. -/
structure Env where
  host : Host := {}
  disabledExtensions : List String := []
  regex : List Script := []
  characterAllowedRegex : Bool := false
  characterScripts : Option (List Script) := none

/-! ### src/index.js, translated -/

/-- `sanitizeRegexMacro` (src/index.js lines 35-55) on string input: each
control character in the escaped set becomes its backslash escape, each
pattern metacharacter or slash gets a leading backslash, everything else
is kept. -/
def sanitizeChar (c : Char) : List Char :=
  if c == Char.ofNat 10 then ['\\', 'n']
  else if c == Char.ofNat 13 then ['\\', 'r']
  else if c == Char.ofNat 9 then ['\\', 't']
  else if c == Char.ofNat 11 then ['\\', 'v']
  else if c == Char.ofNat 12 then ['\\', 'f']
  else if c == Char.ofNat 0 then ['\\', '0']
  else if isRegexMeta c || c == '/' then ['\\', c]
  else [c]

def sanitizeRegexMacro (x : String) : String :=
  String.mk (x.data.foldr (fun c acc => sanitizeChar c ++ acc) [])

/-- `getScopedRegex` (src/index.js lines 57-71): the current character's
scoped scripts, or `[]` when the character is not allowlisted or its
`regex_scripts` field is not an array. -/
def getScopedRegex (env : Env) : List Script :=
  if env.characterAllowedRegex then
    match env.characterScripts with
    | some scripts => scripts
    | none => []
  else []

/-- The `getRegexString` closure of `runRegexScript` (src/index.js lines
145-157): resolve the effective pattern source per `substituteRegex`
(NONE = 0, RAW = 1, ESCAPED = 2, unknown falls back to the raw source). -/
def getRegexString (host : Host) (regexScript : Script) : String :=
  match regexScript.substituteRegex with
  | 0 => regexScript.findRegex
  | 1 => host.substituteParamsExtended regexScript.findRegex
  | 2 => host.substituteParamsExtendedEsc sanitizeRegexMacro regexScript.findRegex
  | _ => regexScript.findRegex

/-- JavaScript `String.replaceAll(pat, '')` for a literal pattern: every
occurrence of `pat` removed, scanning left to right; an empty pattern
leaves the string unchanged. -/
def removeAllAux (pat : List Char) : Nat → List Char → List Char
  | 0, cs => cs
  | _ + 1, [] => []
  | fuel + 1, c :: rest =>
    if pat.isPrefixOf (c :: rest) then removeAllAux pat fuel ((c :: rest).drop pat.length)
    else c :: removeAllAux pat fuel rest

def removeAllLiteral (s pat : String) : String :=
  if pat = "" then s
  else String.mk (removeAllAux pat.data (s.data.length + 1) s.data)

/-- `filterString` (src/index.js lines 201-209): fold over `trimStrings`,
macro-substituting each entry (honoring `characterOverride`) and removing
every literal occurrence of the result from the running string. -/
def filterString (host : Host) (rawString : String) (trimStrings : List String)
    (characterOverride : Option String) : String :=
  trimStrings.foldl (fun finalString trimString =>
    removeAllLiteral finalString (host.substituteParams trimString characterOverride))
    rawString

/-- The marker searched for by `replaceString.replace(/\x7b\x7bmatch\x7d\x7d/gi, ...)`. -/
def matchMarker : List Char :=
  [lbrace, lbrace, 'm', 'a', 't', 'c', 'h', rbrace, rbrace]

/-- Case-insensitive prefix test: does `cs` start with the lowercase
pattern `pat`, comparing each character lowercased? -/
def ciPrefix : List Char → List Char → Bool
  | [], _ => true
  | _ :: _, [] => false
  | p :: ps, c :: cs => (c.toLower == p) && ciPrefix ps cs

/-- src/index.js line 169: replace every case-insensitive occurrence of
the match marker in the template with the literal two characters `$0`
(not special in a string replacement, hence literal). -/
def replaceMarkerAux : Nat → List Char → List Char
  | 0, cs => cs
  | _ + 1, [] => []
  | fuel + 1, c :: rest =>
    if ciPrefix matchMarker (c :: rest) then
      '$' :: '0' :: replaceMarkerAux fuel ((c :: rest).drop matchMarker.length)
    else c :: replaceMarkerAux fuel rest

def replaceMatchMarker (s : String) : String :=
  String.mk (replaceMarkerAux (s.data.length + 1) s.data)

/-- src/index.js lines 170-185, the `replaceAll(/\$(\d+)/g, ...)` pass:
each `$` followed by digits is looked up in `args` (entry 0 = full
match, entry `n` = capture group `n`); a falsy entry (absent group or
empty text) yields the empty string, otherwise the entry is passed
through `filterString` before interpolation. -/
def expandDollarsAux (host : Host) (trims : List String) (co : Option String)
    (args : List (Option String)) : Nat → List Char → List Char
  | 0, cs => cs
  | _ + 1, [] => []
  | fuel + 1, c :: rest =>
    if c == '$' then
      let ds := rest.takeWhile isDigitChar
      if ds.isEmpty then c :: expandDollarsAux host trims co args fuel rest
      else
        let rest2 := rest.drop ds.length
        match (args[natOfDigits ds]?).join with
        | none => expandDollarsAux host trims co args fuel rest2
        | some mStr =>
          if mStr = "" then expandDollarsAux host trims co args fuel rest2
          else (filterString host mStr trims co).data ++
            expandDollarsAux host trims co args fuel rest2
    else c :: expandDollarsAux host trims co args fuel rest

/-- `runRegexScript` (src/index.js lines 139-192): short-circuit on a
disabled script, an empty pattern source or empty input; resolve and
parse the pattern source (a parse failure returns the input unchanged);
otherwise replace each match with the expanded template — marker
substitution, `$n` group expansion with trim filtering, and a final
`substituteParams` pass. -/
def runRegexScript (host : Host) (regexScript : Script) (rawString : String)
    (characterOverride : Option String) : String :=
  if regexScript.disabled ∨ regexScript.findRegex = "" ∨ rawString = "" then rawString
  else
    match regexFromString (getRegexString host regexScript) with
    | none => rawString
    | some findRegex =>
      execReplace findRegex rawString (fun mtch groups =>
        let args : List (Option String) := some mtch :: groups
        let replaceString := replaceMatchMarker regexScript.replaceString
        let replaceWithGroups := String.mk
          (expandDollarsAux host regexScript.trimStrings characterOverride args
            (replaceString.data.length + 1) replaceString.data)
        host.substituteParams replaceWithGroups none)

/-- The applicability-mode gate of `getRegexedString` (src/index.js lines
96-103): markdown-only scripts in markdown mode, prompt-only scripts in
prompt mode, or unflagged scripts when neither mode flag is set. -/
def modeGate (script : Script) (isMarkdown isPrompt : Bool) : Bool :=
  (script.markdownOnly && isMarkdown) || (script.promptOnly && isPrompt) ||
  (!script.markdownOnly && !script.promptOnly && !isMarkdown && !isPrompt)

/-- src/index.js lines 111-114: skip when `minDepth` is a number, not
null, at least `-1`, and the context depth is below it. -/
def depthMinSkip (script : Script) (depth : Option Int) : Bool :=
  match depth with
  | none => false
  | some d =>
    match script.minDepth with
    | none => false
    | some m => decide (-1 ≤ m) && decide (d < m)

/-- src/index.js lines 116-119: skip when `maxDepth` is a number, not
null, at least `0`, and the context depth is above it. -/
def depthMaxSkip (script : Script) (depth : Option Int) : Bool :=
  match depth with
  | none => false
  | some d =>
    match script.maxDepth with
    | none => false
    | some m => decide (0 ≤ m) && decide (m < d)

def depthOk (script : Script) (depth : Option Int) : Bool :=
  !depthMinSkip script depth && !depthMaxSkip script depth

/-- The body of the `allRegex.forEach` loop of `getRegexedString`
(src/index.js lines 95-126); each early `return` of the source leaves the
running string unchanged. -/
def scriptStep (host : Host) (p : RegexParams) (placement : Nat)
    (finalString : String) (script : Script) : String :=
  if modeGate script p.isMarkdown p.isPrompt then
    if p.isEdit && !script.runOnEdit then finalString
    else if depthMinSkip script p.depth then finalString
    else if depthMaxSkip script p.depth then finalString
    else if script.placement.contains placement then
      runRegexScript host script finalString p.characterOverride
    else finalString
  else finalString

/-- The exact condition under which the loop body invokes
`runRegexScript` (see `scriptStep_eq_applies`). -/
def scriptApplies (p : RegexParams) (placement : Nat) (script : Script) : Bool :=
  modeGate script p.isMarkdown p.isPrompt
  && !(p.isEdit && !script.runOnEdit)
  && depthOk script p.depth
  && script.placement.contains placement

/-- `getRegexedString` (src/index.js lines 82-129): empty string for a
non-string input; the input unchanged when the subsystem is disabled,
the input is empty, or no placement is supplied; otherwise the fold of
the loop body over global scripts followed by scoped scripts. -/
def getRegexedString (env : Env) (rawString : JsVal) (placement : Option Nat)
    (p : RegexParams) : String :=
  match rawString with
  | JsVal.str s =>
    match placement with
    | none => s
    | some pl =>
      if env.disabledExtensions.contains "regex" ∨ s = "" then s
      else (env.regex ++ getScopedRegex env).foldl (scriptStep env.host p pl) s
  | _ => ""

/-- `getActiveRegexScripts` (src/index.js lines 218-226): names of the
non-disabled global scripts, `"unnamed"` for a falsy name. -/
def getActiveRegexScripts (env : Env) : List String :=
  (env.regex.filter (fun script => !script.disabled)).map
    (fun script => if script.scriptName = "" then "unnamed" else script.scriptName)

/-! ### General lemmas about the embedding -/

/-- Unfolding equation for the driver on a string input with a supplied
placement. -/
theorem getRegexedString_str_some (env : Env) (s : String) (pl : Nat) (p : RegexParams) :
    getRegexedString env (JsVal.str s) (some pl) p =
      if env.disabledExtensions.contains "regex" ∨ s = "" then s
      else (env.regex ++ getScopedRegex env).foldl (scriptStep env.host p pl) s := rfl

/-- `getScopedRegex` does not read the global script list. -/
theorem getScopedRegex_set_regex (env : Env) (l : List Script) :
    getScopedRegex { env with regex := l } = getScopedRegex env := rfl

/-- The loop body runs `runRegexScript` exactly when `scriptApplies`
holds; every skip path leaves the running string unchanged. -/
theorem scriptStep_eq_applies (host : Host) (p : RegexParams) (pl : Nat)
    (s : String) (script : Script) :
    scriptStep host p pl s script =
      if scriptApplies p pl script then
        runRegexScript host script s p.characterOverride
      else s := by
  unfold scriptStep scriptApplies depthOk
  cases hm : modeGate script p.isMarkdown p.isPrompt <;>
    cases he : p.isEdit && !script.runOnEdit <;>
      cases h1 : depthMinSkip script p.depth <;>
        cases h2 : depthMaxSkip script p.depth <;>
          cases hp : script.placement.contains pl <;>
            simp [hm, he, h1, h2, hp]

theorem runRegexScript_empty (host : Host) (script : Script) (co : Option String) :
    runRegexScript host script "" co = "" := by
  unfold runRegexScript
  simp

theorem scriptStep_empty (host : Host) (p : RegexParams) (pl : Nat) (script : Script) :
    scriptStep host p pl "" script = "" := by
  rw [scriptStep_eq_applies]
  split
  · exact runRegexScript_empty host script p.characterOverride
  · rfl

/-- A script on which `runRegexScript` is the identity never moves the
running string. -/
theorem scriptStep_of_run_id (host : Host) (p : RegexParams) (pl : Nat) (script : Script)
    (h : ∀ s, runRegexScript host script s p.characterOverride = s) (s : String) :
    scriptStep host p pl s script = s := by
  rw [scriptStep_eq_applies]
  split
  · exact h s
  · rfl

/-- Folding over a collection containing a no-op script equals folding
over the collection with that script removed. -/
theorem foldl_step_skip (f : String → Script → String) (script : Script)
    (h : ∀ s, f s script = s) (pre post : List Script) (s0 : String) :
    (pre ++ script :: post).foldl f s0 = (pre ++ post).foldl f s0 := by
  rw [List.foldl_append, List.foldl_append, List.foldl_cons, h]

/-- Removing from the global collection a script on which
`runRegexScript` is the identity does not change the driver's output. -/
theorem getRegexedString_elim_script (env : Env) (script : Script)
    (hrun : ∀ s co, runRegexScript env.host script s co = s)
    (pre post : List Script) (rawv : JsVal) (pl : Option Nat) (p : RegexParams) :
    getRegexedString { env with regex := pre ++ script :: post } rawv pl p
      = getRegexedString { env with regex := pre ++ post } rawv pl p := by
  cases rawv with
  | str s =>
    cases pl with
    | none => rfl
    | some plv =>
      show (if env.disabledExtensions.contains "regex" ∨ s = "" then s
          else ((pre ++ script :: post) ++ getScopedRegex env).foldl (scriptStep env.host p plv) s)
        = (if env.disabledExtensions.contains "regex" ∨ s = "" then s
          else ((pre ++ post) ++ getScopedRegex env).foldl (scriptStep env.host p plv) s)
      by_cases hg : env.disabledExtensions.contains "regex" ∨ s = ""
      · rw [if_pos hg, if_pos hg]
      · rw [if_neg hg, if_neg hg, List.append_assoc, List.append_assoc, List.cons_append,
          foldl_step_skip (scriptStep env.host p plv) script
            (scriptStep_of_run_id env.host p plv script (fun s2 => hrun s2 p.characterOverride))]
  | num n => rfl
  | jsBool b => rfl
  | undef => rfl
  | nullv => rfl

/-! ### Concrete fixtures used by the claim theorems -/

/-- Host environment with no macros defined (both substitution
collaborators act as the identity), no global scripts and no scoped
scripts. -/
def pureEnv : Env := {}

def cBothScript : Script :=
  { findRegex := "/a/", replaceString := "b", placement := [2],
    markdownOnly := true, promptOnly := true }

def sendAsScript : Script :=
  { findRegex := "/a/", replaceString := "b", placement := [4] }

def mdDisplayScript : Script :=
  { findRegex := "/a/", replaceString := "b", placement := [0] }

def emailScript : Script :=
  { findRegex := "/(\\w+)@(\\w+)/",
    replaceString := "user=$1 host=$2 all=\x7b\x7bmatch\x7d\x7d", placement := [2] }

def emailScriptCaps : Script :=
  { emailScript with replaceString := "ALL=\x7b\x7bMaTcH\x7d\x7d" }

def emailScriptMissing : Script :=
  { emailScript with replaceString := "$9" }

def badPatternScript : Script :=
  { findRegex := "no-slash", replaceString := "b", placement := [1] }

def boundsScript : Script :=
  { findRegex := "/a/", replaceString := "b", placement := [1],
    minDepth := some 2, maxDepth := some 5 }

def negMinScript : Script :=
  { findRegex := "/a/", replaceString := "b", placement := [1],
    minDepth := some (-2) }

def replaceAScript : Script :=
  { findRegex := "/a/", replaceString := "x", placement := [1] }

def replaceBScript : Script :=
  { findRegex := "/b/", replaceString := "y", placement := [1] }

def disabledScript : Script :=
  { scriptName := "off", disabled := true, findRegex := "/a/",
    replaceString := "z", placement := [1] }

def scopedDemoEnv : Env :=
  { characterAllowedRegex := true,
    characterScripts := some [{ findRegex := "/a/", replaceString := "b", placement := [1] }] }

def disabledFlagEnv : Env := { disabledExtensions := ["regex"] }

/-! ### Claims -/

/-- Claim C1, counterexample.  The claim asserts that a script with both
`markdownOnly` and `promptOnly` set true is rejected by the
applicability-mode gate in every call context.  On the code the
markdown-only branch of the gate admits such a script whenever the
context's `isMarkdown` is true: with only the both-flags script
installed the pipeline rewrites `"a"` to `"b"`, so the script ran. -/
theorem C1_counterexample :
    cBothScript.markdownOnly = true ∧ cBothScript.promptOnly = true ∧
    getRegexedString { pureEnv with regex := [cBothScript] } (JsVal.str "a") (some 2)
      { isMarkdown := true } ≠ "a" := by
  refine ⟨rfl, rfl, ?_⟩
  decide

/-- Claim C1, amended.  A script with both `markdownOnly` and
`promptOnly` set passes the applicability-mode gate exactly when the
context's `isMarkdown` or `isPrompt` is true (the markdown-only and
prompt-only branches each admit it); only when both context flags are
false is it rejected, in which case it never runs (the loop body leaves
the running string unchanged). -/
theorem C1_both_flags_gate (script : Script)
    (hm : script.markdownOnly = true) (hp : script.promptOnly = true) :
    (∀ isMarkdown isPrompt : Bool,
      modeGate script isMarkdown isPrompt = (isMarkdown || isPrompt))
    ∧ (∀ (host : Host) (p : RegexParams) (pl : Nat) (s : String),
        p.isMarkdown = false → p.isPrompt = false →
        scriptStep host p pl s script = s) := by
  constructor
  · intro iM iP
    simp [modeGate, hm, hp]
  · intro host p pl s h1 h2
    have hg : modeGate script p.isMarkdown p.isPrompt = false := by
      simp [modeGate, hm, hp, h1, h2]
    simp [scriptStep, hg]

theorem C1_both_flags_gate_witness :
    modeGate cBothScript false true = true ∧
    scriptStep pureEnv.host {} 2 "a" cBothScript = "a" := by
  constructor
  · have h := (C1_both_flags_gate cBothScript rfl rfl).1 false true
    rw [h]
    rfl
  · exact (C1_both_flags_gate cBothScript rfl rfl).2 pureEnv.host {} 2 "a" rfl rfl

/-- Claim C2, counterexample.  The claim asserts that a script listing
the legacy send-as placement (4) or the deprecated display-only
placement (0) is never run when the call supplies that placement.  The
code's membership test `script.placement.includes(placement)` does not
special-case either value: in both cases the installed script rewrites
`"a"` to `"b"`, so it ran. -/
theorem C2_counterexample :
    sendAsScript.placement = [4] ∧
    getRegexedString { pureEnv with regex := [sendAsScript] } (JsVal.str "a")
      (some 4) {} ≠ "a" ∧
    mdDisplayScript.placement = [0] ∧
    getRegexedString { pureEnv with regex := [mdDisplayScript] } (JsVal.str "a")
      (some 0) {} ≠ "a" := by
  refine ⟨rfl, ?_, rfl, ?_⟩ <;> decide

/-- Claim C2, amended.  A script runs only if its placement list
contains the supplied placement value; no placement value is excluded by
the engine, so a script listing the legacy send-as or deprecated
display-only value does run when that placement is supplied.  Stated
positively: whichever script the loop body actually runs must list the
supplied placement, and a script not listing it never moves the running
string. -/
theorem C2_placement_membership :
    (∀ (p : RegexParams) (pl : Nat) (script : Script),
      scriptApplies p pl script = true → script.placement.contains pl = true)
    ∧ (∀ (host : Host) (p : RegexParams) (pl : Nat) (s : String) (script : Script),
        script.placement.contains pl = false → scriptStep host p pl s script = s) := by
  constructor
  · intro p pl script h
    simp only [scriptApplies, Bool.and_eq_true] at h
    exact h.2
  · intro host p pl s script h
    have hf : scriptApplies p pl script = false := by
      unfold scriptApplies
      rw [h, Bool.and_false]
    rw [scriptStep_eq_applies, hf]
    simp

theorem C2_placement_membership_witness :
    scriptApplies {} 1 replaceAScript = true ∧
    replaceAScript.placement.contains 1 = true ∧
    scriptStep pureEnv.host {} 2 "a" replaceAScript = "a" :=
  ⟨by decide, C2_placement_membership.1 {} 1 replaceAScript (by decide),
    C2_placement_membership.2 pureEnv.host {} 2 "a" replaceAScript (by decide)⟩

/-- Claim C3.  A script whose resolved pattern source fails to parse
(`regexFromString` returns its `none` signal) is a no-op: applying it
returns the input text unchanged, and removing it from the global
collection does not change the driver's output on any input, so every
later script is still applied exactly as before. -/
theorem C3_malformed_pattern_noop (env : Env) (script : Script)
    (hparse : regexFromString (getRegexString env.host script) = none) :
    (∀ raw co, runRegexScript env.host script raw co = raw) ∧
    (∀ pre post rawv pl p,
      getRegexedString { env with regex := pre ++ script :: post } rawv pl p
        = getRegexedString { env with regex := pre ++ post } rawv pl p) := by
  have hrun : ∀ raw co, runRegexScript env.host script raw co = raw := by
    intro raw co
    unfold runRegexScript
    split
    · rfl
    · simp [hparse]
  exact ⟨hrun, fun pre post rawv pl p =>
    getRegexedString_elim_script env script hrun pre post rawv pl p⟩

theorem C3_malformed_pattern_noop_witness :
    runRegexScript pureEnv.host badPatternScript "hello" none = "hello" ∧
    getRegexedString { pureEnv with regex := [badPatternScript, replaceAScript] }
        (JsVal.str "aa") (some 1) {}
      = getRegexedString { pureEnv with regex := [replaceAScript] }
          (JsVal.str "aa") (some 1) {} :=
  ⟨(C3_malformed_pattern_noop pureEnv badPatternScript (by decide)).1 "hello" none,
    (C3_malformed_pattern_noop pureEnv badPatternScript (by decide)).2 [] [replaceAScript]
      (JsVal.str "aa") (some 1) {}⟩

/-- Claim C4.  With pattern source `(\w+)@(\w+)`, replacement template
`user=$1 host=$2 all=` followed by the match marker, an empty trim list
and no macros defined, the input `alice@example` rewrites to
`user=alice host=example all=alice@example`.  The marker is matched
case-insensitively (`ALL=` variant with mixed-case marker), and a `$N`
referencing a missing group expands to the empty string (`$9` variant). -/
theorem C4_placeholder_expansion :
    runRegexScript pureEnv.host emailScript "alice@example" none
      = "user=alice host=example all=alice@example" ∧
    runRegexScript pureEnv.host emailScriptCaps "alice@example" none
      = "ALL=alice@example" ∧
    runRegexScript pureEnv.host emailScriptMissing "alice@example" none = "" := by
  refine ⟨?_, ?_, ?_⟩ <;> decide

/-- Claim C5.  For a context depth that is a defined number: a script
with `minDepth = 2` and `maxDepth = 5` passes the depth gate exactly
when the depth lies in `[2, 5]` (hence is ineligible at depths 1 and 6);
a lower bound of `-2` (below the valid range) is inert, exactly like an
absent lower bound; an upper bound below 0 is inert; and an undefined
depth imposes no restriction.  (Absent, null and not-a-number bounds are
all modelled as `none`, since the source's `!isNaN(x) && x !== null`
test fails on each.) -/
theorem C5_depth_bounds :
    (∀ script : Script, script.minDepth = some 2 → script.maxDepth = some 5 →
      ∀ d : Int, depthOk script (some d) = (decide (2 ≤ d) && decide (d ≤ 5)))
    ∧ (∀ (script : Script) (d : Int), script.minDepth = some (-2) →
        depthMinSkip script (some d) = false)
    ∧ (∀ (script : Script) (d : Int), script.minDepth = none →
        depthMinSkip script (some d) = false)
    ∧ (∀ (script : Script) (m d : Int), script.maxDepth = some m → m < 0 →
        depthMaxSkip script (some d) = false)
    ∧ (∀ script : Script, depthOk script none = true) := by
  have e1 : decide ((-1 : Int) ≤ 2) = true := by decide
  have e2 : decide ((0 : Int) ≤ 5) = true := by decide
  refine ⟨?_, ?_, ?_, ?_, fun script => rfl⟩
  · intro script h2 h5 d
    simp only [depthOk, depthMinSkip, depthMaxSkip, h2, h5, e1, e2, Bool.true_and]
    rw [Bool.eq_iff_iff]
    simp only [Bool.and_eq_true, Bool.not_eq_true', decide_eq_false_iff_not,
      decide_eq_true_eq]
    omega
  · intro script d h
    have e : decide ((-1 : Int) ≤ -2) = false := by decide
    simp [depthMinSkip, h, e]
  · intro script d h
    simp [depthMinSkip, h]
  · intro script m d hm hneg
    have e : decide ((0 : Int) ≤ m) = false := decide_eq_false (not_le.mpr hneg)
    simp [depthMaxSkip, hm, e]

theorem C5_depth_bounds_witness :
    depthOk boundsScript (some 2) = true ∧ depthOk boundsScript (some 5) = true ∧
    depthOk boundsScript (some 1) = false ∧ depthOk boundsScript (some 6) = false ∧
    depthMinSkip negMinScript (some 0) = false := by
  refine ⟨?_, ?_, ?_, ?_, C5_depth_bounds.2.1 negMinScript 0 rfl⟩
  · rw [C5_depth_bounds.1 boundsScript rfl rfl 2]; decide
  · rw [C5_depth_bounds.1 boundsScript rfl rfl 5]; decide
  · rw [C5_depth_bounds.1 boundsScript rfl rfl 1]; decide
  · rw [C5_depth_bounds.1 boundsScript rfl rfl 6]; decide

/-- Claim C6.  The pipeline is a sequential left fold over the ordered
collection (global scripts then scoped scripts): with no scoped scripts
installed, running the driver over `[S1, S2]` equals running it over
`[S1]` and feeding the full result to a run over `[S2]` — each script's
replacement completes over the whole running string before the next
script is considered. -/
theorem C6_sequential_composition (env : Env) (S1 S2 : Script) (raw : String)
    (pl : Nat) (p : RegexParams)
    (hdis : env.disabledExtensions.contains "regex" = false)
    (hsc : getScopedRegex env = []) :
    getRegexedString { env with regex := [S1, S2] } (JsVal.str raw) (some pl) p
      = getRegexedString { env with regex := [S2] }
          (JsVal.str (getRegexedString { env with regex := [S1] } (JsVal.str raw)
            (some pl) p))
          (some pl) p := by
  by_cases hr : raw = ""
  · subst hr
    have hempty : getRegexedString { env with regex := [S1] } (JsVal.str "")
        (some pl) p = "" := by
      show (if env.disabledExtensions.contains "regex" = true ∨ "" = "" then ""
          else ([S1] ++ getScopedRegex env).foldl (scriptStep env.host p pl) "") = ""
      rw [if_pos (Or.inr rfl)]
    rw [hempty]
    show (if env.disabledExtensions.contains "regex" = true ∨ "" = "" then ""
        else ([S1, S2] ++ getScopedRegex env).foldl (scriptStep env.host p pl) "")
      = (if env.disabledExtensions.contains "regex" = true ∨ "" = "" then ""
        else ([S2] ++ getScopedRegex env).foldl (scriptStep env.host p pl) "")
    rw [if_pos (Or.inr rfl), if_pos (Or.inr rfl)]
  · have hcond : ¬(env.disabledExtensions.contains "regex" = true ∨ raw = "") := by
      intro hor
      rcases hor with hor | hor
      · rw [hdis] at hor
        exact Bool.false_ne_true hor
      · exact hr hor
    have hinner : getRegexedString { env with regex := [S1] } (JsVal.str raw)
        (some pl) p = scriptStep env.host p pl raw S1 := by
      show (if env.disabledExtensions.contains "regex" = true ∨ raw = "" then raw
          else ([S1] ++ getScopedRegex env).foldl (scriptStep env.host p pl) raw)
        = scriptStep env.host p pl raw S1
      rw [if_neg hcond, hsc]
      rfl
    rw [hinner]
    show (if env.disabledExtensions.contains "regex" = true ∨ raw = "" then raw
        else ([S1, S2] ++ getScopedRegex env).foldl (scriptStep env.host p pl) raw)
      = (if env.disabledExtensions.contains "regex" = true ∨
            scriptStep env.host p pl raw S1 = ""
          then scriptStep env.host p pl raw S1
          else ([S2] ++ getScopedRegex env).foldl (scriptStep env.host p pl)
            (scriptStep env.host p pl raw S1))
    rw [hsc, if_neg hcond]
    by_cases ht : scriptStep env.host p pl raw S1 = ""
    · rw [if_pos (Or.inr ht)]
      show scriptStep env.host p pl (scriptStep env.host p pl raw S1) S2
        = scriptStep env.host p pl raw S1
      rw [ht, scriptStep_empty]
    · have hc2 : ¬(env.disabledExtensions.contains "regex" = true ∨
          scriptStep env.host p pl raw S1 = "") := by
        intro hor
        rcases hor with hor | hor
        · rw [hdis] at hor
          exact Bool.false_ne_true hor
        · exact ht hor
      rw [if_neg hc2]
      rfl

theorem C6_sequential_composition_witness :
    getRegexedString { pureEnv with regex := [replaceAScript, replaceBScript] }
        (JsVal.str "ab") (some 1) {}
      = getRegexedString { pureEnv with regex := [replaceBScript] }
          (JsVal.str (getRegexedString { pureEnv with regex := [replaceAScript] }
            (JsVal.str "ab") (some 1) {}))
          (some 1) {} :=
  C6_sequential_composition pureEnv replaceAScript replaceBScript "ab" 1 {} rfl rfl

/-- Claim C7.  A disabled script contributes nothing: removing it from
the global collection changes neither the driver's output on any input
nor the active-script name listing, so every other script's contribution
is unaffected and the disabled script never appears in the listing. -/
theorem C7_disabled_invariance (env : Env) (pre post : List Script) (script : Script)
    (hd : script.disabled = true) :
    (∀ rawv pl p,
      getRegexedString { env with regex := pre ++ script :: post } rawv pl p
        = getRegexedString { env with regex := pre ++ post } rawv pl p) ∧
    getActiveRegexScripts { env with regex := pre ++ script :: post }
      = getActiveRegexScripts { env with regex := pre ++ post } := by
  have hrun : ∀ s co, runRegexScript env.host script s co = s := by
    intro s co
    unfold runRegexScript
    rw [if_pos (Or.inl hd)]
  refine ⟨fun rawv pl p =>
    getRegexedString_elim_script env script hrun pre post rawv pl p, ?_⟩
  simp [getActiveRegexScripts, List.filter_append, List.filter_cons, hd]

theorem C7_disabled_invariance_witness :
    getRegexedString { pureEnv with regex := [disabledScript, replaceAScript] }
        (JsVal.str "a") (some 1) {}
      = getRegexedString { pureEnv with regex := [replaceAScript] }
          (JsVal.str "a") (some 1) {} ∧
    getActiveRegexScripts { pureEnv with regex := [disabledScript, replaceAScript] }
      = getActiveRegexScripts { pureEnv with regex := [replaceAScript] } :=
  ⟨(C7_disabled_invariance pureEnv [] [replaceAScript] disabledScript rfl).1
      (JsVal.str "a") (some 1) {},
    (C7_disabled_invariance pureEnv [] [replaceAScript] disabledScript rfl).2⟩

/-- Claim C8.  Driver guards: every non-string input yields the empty
string; a string input is returned unchanged when the global
regex-disabled flag is set, and the empty string and an undefined
placement are likewise returned unchanged — in particular the driver on
the empty string is the empty string for every placement and context. -/
theorem C8_driver_guards (env : Env) :
    (∀ pl p,
      getRegexedString env JsVal.undef pl p = "" ∧
      getRegexedString env JsVal.nullv pl p = "" ∧
      (∀ n, getRegexedString env (JsVal.num n) pl p = "") ∧
      (∀ b, getRegexedString env (JsVal.jsBool b) pl p = ""))
    ∧ (∀ s pl p, env.disabledExtensions.contains "regex" = true →
        getRegexedString env (JsVal.str s) pl p = s)
    ∧ (∀ pl p, getRegexedString env (JsVal.str "") pl p = "")
    ∧ (∀ s p, getRegexedString env (JsVal.str s) none p = s) := by
  refine ⟨fun pl p => ⟨rfl, rfl, fun n => rfl, fun b => rfl⟩, ?_, ?_, fun s p => rfl⟩
  · intro s pl p h
    cases pl with
    | none => rfl
    | some plv =>
      show (if env.disabledExtensions.contains "regex" = true ∨ s = "" then s
          else (env.regex ++ getScopedRegex env).foldl (scriptStep env.host p plv) s) = s
      rw [if_pos (Or.inl h)]
  · intro pl p
    cases pl with
    | none => rfl
    | some plv =>
      show (if env.disabledExtensions.contains "regex" = true ∨ "" = "" then ""
          else (env.regex ++ getScopedRegex env).foldl (scriptStep env.host p plv) "") = ""
      rw [if_pos (Or.inr rfl)]

theorem C8_driver_guards_witness :
    getRegexedString disabledFlagEnv (JsVal.str "hello") (some 1) {} = "hello" ∧
    getRegexedString pureEnv (JsVal.num 7) (some 1) {} = "" :=
  ⟨(C8_driver_guards disabledFlagEnv).2.1 "hello" (some 1) {} (by decide),
    ((C8_driver_guards pureEnv).1 (some 1) {}).2.2.1 7⟩

/-- Claim C9.  With no macros defined, the post-filter removes each trim
entry as an exact literal, all occurrences, entries applied in list
order.  Concretely: two-space entry on a two-space-padded fragment
yields the bare word (both occurrences removed); a dot entry removes
only literal dots, not arbitrary characters; and swapping the order of
overlapping entries changes the result, because later entries operate on
the output of earlier removals. -/
theorem C9_trim_literal :
    filterString pureEnv.host "  secret  " ["  "] none = "secret" ∧
    filterString pureEnv.host "a.b" ["."] none = "ab" ∧
    filterString pureEnv.host "aba" ["b", "ab"] none = "aa" ∧
    filterString pureEnv.host "aba" ["ab", "b"] none = "a" := by
  refine ⟨?_, ?_, ?_, ?_⟩ <;> decide

/-- Claim C10.  The active-script name listing reads only the global
collection: changing the scoped (character) scripts or the character
allowance never changes the listing, and in a concrete environment whose
only script is an enabled, eligible scoped script, that script rewrites
the pipeline input yet the listing is empty. -/
theorem C10_listing_global_only :
    (∀ (env : Env) (allowed : Bool) (cs : Option (List Script)),
      getActiveRegexScripts
          { env with characterAllowedRegex := allowed, characterScripts := cs }
        = getActiveRegexScripts env)
    ∧ getActiveRegexScripts scopedDemoEnv = []
    ∧ getRegexedString scopedDemoEnv (JsVal.str "a") (some 1) {} = "b" := by
  refine ⟨fun env allowed cs => rfl, by decide, by decide⟩

theorem C10_listing_global_only_witness :
    getActiveRegexScripts
        { pureEnv with characterAllowedRegex := true, characterScripts := some [replaceAScript] }
      = getActiveRegexScripts pureEnv :=
  C10_listing_global_only.1 pureEnv true (some [replaceAScript])


end RegexListSpec
